import Mathlib

/-!
Verification of the worker-bridge core of the edge-docker repository.

The embedding models `src/service/utils/mcp.js` (`callEdgeTts`: an
event-driven RPC session over a spawned channel process) and
`src/service/utils/container.js` (`checkContainer` / `ensureContainer`).

Strings and buffers are modelled as `List Char`.  The JavaScript
`JSON.parse` builtin is modelled by `jsonParse`, a recursive-descent JSON
parser; JSON numbers are modelled as integers (the protocol only uses
integer ids, and no claim depends on fractional numbers).
-/

namespace EdgeDocker

/-- Left and right curly brace characters, by code point. -/
def lbrace : Char := Char.ofNat 123

def rbrace : Char := Char.ofNat 125

/-- JSON values, the result type of the `JSON.parse` model.
Object fields keep their textual order; duplicate keys are resolved at
lookup time (last occurrence wins, as in JavaScript). -/
inductive Json where
  | null
  | bool (b : Bool)
  | num (n : Int)
  | str (s : List Char)
  | arr (elems : List Json)
  | obj (fields : List (List Char × Json))
deriving Repr

mutual

def decEqJson : (a b : Json) → Decidable (a = b)
  | .null, .null => isTrue rfl
  | .null, .bool _ => isFalse (fun h => Json.noConfusion h)
  | .null, .num _ => isFalse (fun h => Json.noConfusion h)
  | .null, .str _ => isFalse (fun h => Json.noConfusion h)
  | .null, .arr _ => isFalse (fun h => Json.noConfusion h)
  | .null, .obj _ => isFalse (fun h => Json.noConfusion h)
  | .bool _, .null => isFalse (fun h => Json.noConfusion h)
  | .bool x, .bool y =>
    if h : x = y then isTrue (by rw [h]) else isFalse (fun hc => by cases hc; exact h rfl)
  | .bool _, .num _ => isFalse (fun h => Json.noConfusion h)
  | .bool _, .str _ => isFalse (fun h => Json.noConfusion h)
  | .bool _, .arr _ => isFalse (fun h => Json.noConfusion h)
  | .bool _, .obj _ => isFalse (fun h => Json.noConfusion h)
  | .num _, .null => isFalse (fun h => Json.noConfusion h)
  | .num _, .bool _ => isFalse (fun h => Json.noConfusion h)
  | .num x, .num y =>
    if h : x = y then isTrue (by rw [h]) else isFalse (fun hc => by cases hc; exact h rfl)
  | .num _, .str _ => isFalse (fun h => Json.noConfusion h)
  | .num _, .arr _ => isFalse (fun h => Json.noConfusion h)
  | .num _, .obj _ => isFalse (fun h => Json.noConfusion h)
  | .str _, .null => isFalse (fun h => Json.noConfusion h)
  | .str _, .bool _ => isFalse (fun h => Json.noConfusion h)
  | .str _, .num _ => isFalse (fun h => Json.noConfusion h)
  | .str x, .str y =>
    if h : x = y then isTrue (by rw [h]) else isFalse (fun hc => by cases hc; exact h rfl)
  | .str _, .arr _ => isFalse (fun h => Json.noConfusion h)
  | .str _, .obj _ => isFalse (fun h => Json.noConfusion h)
  | .arr _, .null => isFalse (fun h => Json.noConfusion h)
  | .arr _, .bool _ => isFalse (fun h => Json.noConfusion h)
  | .arr _, .num _ => isFalse (fun h => Json.noConfusion h)
  | .arr _, .str _ => isFalse (fun h => Json.noConfusion h)
  | .arr xs, .arr ys =>
    match decEqJsonList xs ys with
    | isTrue h => isTrue (by rw [h])
    | isFalse h => isFalse (fun hc => by cases hc; exact h rfl)
  | .arr _, .obj _ => isFalse (fun h => Json.noConfusion h)
  | .obj _, .null => isFalse (fun h => Json.noConfusion h)
  | .obj _, .bool _ => isFalse (fun h => Json.noConfusion h)
  | .obj _, .num _ => isFalse (fun h => Json.noConfusion h)
  | .obj _, .str _ => isFalse (fun h => Json.noConfusion h)
  | .obj _, .arr _ => isFalse (fun h => Json.noConfusion h)
  | .obj xs, .obj ys =>
    match decEqJsonFields xs ys with
    | isTrue h => isTrue (by rw [h])
    | isFalse h => isFalse (fun hc => by cases hc; exact h rfl)

def decEqJsonList : (a b : List Json) → Decidable (a = b)
  | [], [] => isTrue rfl
  | [], _ :: _ => isFalse (fun h => List.noConfusion h)
  | _ :: _, [] => isFalse (fun h => List.noConfusion h)
  | x :: xs, y :: ys =>
    match decEqJson x y with
    | isFalse h => isFalse (fun hc => by injection hc with h1 h2; exact h h1)
    | isTrue h1 =>
      match decEqJsonList xs ys with
      | isTrue h2 => isTrue (by rw [h1, h2])
      | isFalse h2 => isFalse (fun hc => by injection hc with ha hb; exact h2 hb)

def decEqJsonFields : (a b : List (List Char × Json)) → Decidable (a = b)
  | [], [] => isTrue rfl
  | [], _ :: _ => isFalse (fun h => List.noConfusion h)
  | _ :: _, [] => isFalse (fun h => List.noConfusion h)
  | (k1, v1) :: xs, (k2, v2) :: ys =>
    if hk : k1 = k2 then
      match decEqJson v1 v2 with
      | isFalse h => isFalse (fun hc => by injection hc with h1 h2; injection h1; contradiction)
      | isTrue h1 =>
        match decEqJsonFields xs ys with
        | isTrue h2 => isTrue (by rw [hk, h1, h2])
        | isFalse h2 => isFalse (fun hc => by injection hc with ha hb; exact h2 hb)
    else isFalse (fun hc => by injection hc with h1 h2; injection h1; contradiction)

end

instance : DecidableEq Json := decEqJson

/-- JSON insignificant whitespace (also what `String.prototype.trim`
removes, restricted to the characters that occur in this protocol). -/
def isWsChar (c : Char) : Bool :=
  c = ' ' || c = '\t' || c = '\n' || c = '\r'

/-- Drop leading whitespace. -/
def skipWs : List Char → List Char
  | [] => []
  | c :: cs => if isWsChar c then skipWs cs else c :: cs

/-- A chunk is blank iff `chunk.trim()` is falsy in JavaScript. -/
def isBlank (cs : List Char) : Bool := cs.all isWsChar

def digitsToNat (ds : List Char) : Nat :=
  ds.foldl (fun acc c => acc * 10 + (c.toNat - 48)) 0

/-- Split off a maximal run of leading decimal digits. -/
def takeDigits : List Char → List Char × List Char
  | [] => ([], [])
  | c :: cs =>
    if c.isDigit then
      let (ds, rest) := takeDigits cs
      (c :: ds, rest)
    else ([], c :: cs)

/-- Parse a JSON number (modelled as an optionally signed integer). -/
def parseNumber (cs : List Char) : Option (Json × List Char) :=
  match cs with
  | '-' :: rest =>
    let (ds, rest') := takeDigits rest
    if ds.isEmpty then none else some (.num (-(digitsToNat ds : Int)), rest')
  | _ =>
    let (ds, rest') := takeDigits cs
    if ds.isEmpty then none else some (.num (digitsToNat ds : Int), rest')

def hexVal (c : Char) : Option Nat :=
  if c.isDigit then some (c.toNat - 48)
  else if 'a' ≤ c ∧ c ≤ 'f' then some (c.toNat - 87)
  else if 'A' ≤ c ∧ c ≤ 'F' then some (c.toNat - 55)
  else none

/-- Parse the body of a JSON string after the opening quote, returning the
decoded characters and the remainder after the closing quote.  Raw control
characters are rejected, escape sequences are decoded. -/
def parseStringBody (fuel : Nat) (cs : List Char) : Option (List Char × List Char) :=
  match fuel, cs with
  | 0, _ => none
  | _, [] => none
  | fuel + 1, c :: cs =>
    if c = '"' then some ([], cs)
    else if c = '\\' then
      match cs with
      | [] => none
      | e :: cs' =>
        let decoded : Option (Char × List Char) :=
          if e = '"' then some ('"', cs')
          else if e = '\\' then some ('\\', cs')
          else if e = '/' then some ('/', cs')
          else if e = 'b' then some (Char.ofNat 8, cs')
          else if e = 'f' then some (Char.ofNat 12, cs')
          else if e = 'n' then some ('\n', cs')
          else if e = 'r' then some ('\r', cs')
          else if e = 't' then some ('\t', cs')
          else if e = 'u' then
            match cs' with
            | h1 :: h2 :: h3 :: h4 :: cs'' =>
              match hexVal h1, hexVal h2, hexVal h3, hexVal h4 with
              | some v1, some v2, some v3, some v4 =>
                some (Char.ofNat (((v1 * 16 + v2) * 16 + v3) * 16 + v4), cs'')
              | _, _, _, _ => none
            | _ => none
          else none
        match decoded with
        | some (d, rest) =>
          match parseStringBody fuel rest with
          | some (s, rest') => some (d :: s, rest')
          | none => none
        | none => none
    else if c.toNat < 32 then none
    else
      match parseStringBody fuel cs with
      | some (s, rest) => some (c :: s, rest)
      | none => none

mutual

/-- Parse one JSON value (leading whitespace allowed), returning the value
and the unconsumed remainder. -/
def parseValue : Nat → List Char → Option (Json × List Char)
  | 0, _ => none
  | fuel + 1, cs =>
    match skipWs cs with
    | [] => none
    | c :: rest =>
      if c = lbrace then
        match skipWs rest with
        | [] => none
        | c1 :: rest1 =>
          if c1 = rbrace then some (.obj [], rest1)
          else
            match parseMembers fuel (c1 :: rest1) with
            | some (fs, rest2) => some (.obj fs, rest2)
            | none => none
      else if c = '[' then
        match skipWs rest with
        | [] => none
        | c1 :: rest1 =>
          if c1 = ']' then some (.arr [], rest1)
          else
            match parseElems fuel (c1 :: rest1) with
            | some (es, rest2) => some (.arr es, rest2)
            | none => none
      else if c = '"' then
        match parseStringBody (rest.length + 1) rest with
        | some (s, rest1) => some (.str s, rest1)
        | none => none
      else if c = 't' then
        match rest with
        | 'r' :: 'u' :: 'e' :: rest1 => some (.bool true, rest1)
        | _ => none
      else if c = 'f' then
        match rest with
        | 'a' :: 'l' :: 's' :: 'e' :: rest1 => some (.bool false, rest1)
        | _ => none
      else if c = 'n' then
        match rest with
        | 'u' :: 'l' :: 'l' :: rest1 => some (.null, rest1)
        | _ => none
      else parseNumber (c :: rest)

/-- Parse one or more `"key": value` members followed by a closing brace. -/
def parseMembers : Nat → List Char → Option (List (List Char × Json) × List Char)
  | 0, _ => none
  | fuel + 1, cs =>
    match cs with
    | '"' :: rest =>
      match parseStringBody (rest.length + 1) rest with
      | some (key, rest1) =>
        match skipWs rest1 with
        | ':' :: rest2 =>
          match parseValue fuel rest2 with
          | some (v, rest3) =>
            match skipWs rest3 with
            | [] => none
            | c4 :: rest4 =>
              if c4 = ',' then
                match parseMembers fuel (skipWs rest4) with
                | some (fs, rest5) => some ((key, v) :: fs, rest5)
                | none => none
              else if c4 = rbrace then some ([(key, v)], rest4)
              else none
          | none => none
        | _ => none
      | none => none
    | _ => none

/-- Parse one or more array elements followed by a closing bracket. -/
def parseElems : Nat → List Char → Option (List Json × List Char)
  | 0, _ => none
  | fuel + 1, cs =>
    match parseValue fuel cs with
    | some (v, rest) =>
      match skipWs rest with
      | [] => none
      | c1 :: rest1 =>
        if c1 = ',' then
          match parseElems fuel rest1 with
          | some (es, rest2) => some (v :: es, rest2)
          | none => none
        else if c1 = ']' then some ([v], rest1)
        else none
    | none => none

end

/-- Model of `JSON.parse`: parse a complete JSON document; trailing
non-whitespace makes the parse fail. -/
def jsonParse (cs : List Char) : Option Json :=
  match parseValue (2 * cs.length + 2) cs with
  | some (v, rest) => if (skipWs rest).isEmpty then some v else none
  | none => none

/-- Property lookup on a parsed object: last duplicate key wins (as in
`JSON.parse`); property access on a non-object yields `undefined`. -/
def lookupField : List (List Char × Json) → List Char → Option Json
  | [], _ => none
  | (k, v) :: fs, key =>
    match lookupField fs key with
    | some r => some r
    | none => if k = key then some v else none

def getField : Json → List Char → Option Json
  | .obj fs, key => lookupField fs key
  | _, _ => none

/-- JavaScript truthiness of a parsed JSON value. -/
def truthy : Json → Bool
  | .null => false
  | .bool b => b
  | .num n => !(n = 0 : Bool)
  | .str s => !s.isEmpty
  | .arr _ => true
  | .obj _ => true

/-- `response.id === 2` on a parsed message. -/
def isId2 (response : Json) : Bool :=
  match getField response ("id".data) with
  | some (.num n) => n == 2
  | _ => false

def escapeChar (c : Char) : List Char :=
  if c = '"' then ['\\', '"']
  else if c = '\\' then ['\\', '\\']
  else if c = '\n' then ['\\', 'n']
  else if c = '\t' then ['\\', 't']
  else if c = '\r' then ['\\', 'r']
  else [c]

mutual

/-- Model of `JSON.stringify` on parsed values. -/
def stringifyJson : Json → List Char
  | .null => "null".data
  | .bool true => "true".data
  | .bool false => "false".data
  | .num n => (toString n).data
  | .str s => '"' :: (s.foldr (fun c acc => escapeChar c ++ acc) ['"'])
  | .arr es => '[' :: stringifyElems es ++ [']']
  | .obj fs => lbrace :: stringifyFields fs ++ [rbrace]

def stringifyElems : List Json → List Char
  | [] => []
  | [e] => stringifyJson e
  | e :: es => stringifyJson e ++ ',' :: stringifyElems es

def stringifyFields : List (List Char × Json) → List Char
  | [] => []
  | [(k, v)] => '"' :: k ++ '"' :: ':' :: stringifyJson v
  | (k, v) :: fs => ('"' :: k ++ '"' :: ':' :: stringifyJson v) ++ ',' :: stringifyFields fs

end

mutual

/-- JavaScript `String(...)` coercion of a parsed JSON value, as applied by
`new Error(message)` to a non-string message. -/
def jsToStringChars : Json → List Char
  | .null => "null".data
  | .bool true => "true".data
  | .bool false => "false".data
  | .num n => (toString n).data
  | .str s => s
  | .arr es => jsJoinComma es
  | .obj _ => "[object Object]".data

def jsJoinComma : List Json → List Char
  | [] => []
  | [e] => jsToStringChars e
  | e :: es => jsToStringChars e ++ ',' :: jsJoinComma es

end

/-- The message of the rejection built from a response error field:
`response.error.message || JSON.stringify(response.error)`. -/
def errorMessageOf (e : Json) : List Char :=
  match getField e ("message".data) with
  | some m => if truthy m then jsToStringChars m else stringifyJson e
  | none => stringifyJson e

/-! ## The RPC session of `callEdgeTts` (src/service/utils/mcp.js)

The promise body of `callEdgeTts` is event-driven: handlers for stdout
data, stderr data, process `close`, process `error`, the 10-second
deadline timer, and the 100ms deferred kill scheduled on success.  We
model it as a state machine: `sessionStep` applies one observed I/O event
to the session state.  Timer events (`timeoutFire`, `graceKillFire`) are
no-ops when the corresponding timer is not armed, which models that a
cleared or never-armed `setTimeout` callback does not run. -/

/-- The settlement of the promise returned by `callEdgeTts`:
`success` is `resolve(response.result)`; the others are the `reject`
paths, carrying the data their `Error` message is built from. -/
inductive Outcome where
  | success (result : Json)
  | remoteError (msg : List Char)
  | timeout
  | prematureExit (code : Int) (stderrExcerpt : List Char)
  | spawnFailure (msg : List Char)
deriving DecidableEq, Repr

def isSpawnFailure : Outcome → Bool
  | .spawnFailure _ => true
  | _ => false

/-- The mutable state of one `callEdgeTts` promise body: the `stdout` and
`stderr` accumulation strings, the `resolved` flag, whether the deadline
timer is still armed (`clearTimeout` not yet called, not yet fired),
whether the deferred 100ms kill is scheduled, whether the spawned docker
process is still running, and the settlement (if any). -/
structure SessionState where
  stdoutBuf : List Char
  stderrBuf : List Char
  resolved : Bool
  timeoutArmed : Bool
  graceKillArmed : Bool
  procRunning : Bool
  outcome : Option Outcome
deriving DecidableEq, Repr

/-- The I/O events a session can observe. -/
inductive SessionEvent where
  | stdoutData (chunk : List Char)
  | stderrData (chunk : List Char)
  | processClose (code : Int)
  | processError (msg : List Char)
  | timeoutFire
  | graceKillFire
deriving DecidableEq, Repr

/-- `buf.split('\n')`: split on every newline, keeping empty segments,
including the trailing segment after the last newline. -/
def splitNl : List Char → List (List Char)
  | [] => [[]]
  | c :: cs =>
    if c = '\n' then [] :: splitNl cs
    else
      match splitNl cs with
      | [] => [[c]]
      | seg :: segs => (c :: seg) :: segs

/-- The `else if (response.result)` arm of the stdout handler. -/
def resultBranch (st : SessionState) (response : Json) : SessionState × Bool :=
  match getField response ("result".data) with
  | some r =>
    if truthy r then
      ({ st with graceKillArmed := true, outcome := some (.success r) }, true)
    else (st, false)
  | none => (st, false)

/-- One iteration of `for (const line of lines)` in the stdout handler.
The returned flag records whether the iteration executed `return
resolve`/`return reject` (ending the handler). -/
def handleLine (st : SessionState) (line : List Char) : SessionState × Bool :=
  if isBlank line then (st, false)
  else
    match jsonParse line with
    | none => (st, false)
    | some response =>
      if isId2 response && !st.resolved then
        let st1 : SessionState := { st with resolved := true, timeoutArmed := false }
        match getField response ("error".data) with
        | some e =>
          if truthy e then
            ({ st1 with procRunning := false,
                        outcome := some (.remoteError (errorMessageOf e)) }, true)
          else resultBranch st1 response
        | none => resultBranch st1 response
      else (st, false)

def handleLines : SessionState → List (List Char) → SessionState
  | st, [] => st
  | st, line :: rest =>
    match handleLine st line with
    | (st1, true) => st1
    | (st1, false) => handleLines st1 rest

/-- The `dockerProcess.stdout.on('data', ...)` handler: append the chunk
to the accumulated buffer, then re-split the whole buffer on newlines and
try to parse every segment. -/
def onStdoutData (st : SessionState) (chunk : List Char) : SessionState :=
  let buf := st.stdoutBuf ++ chunk
  handleLines { st with stdoutBuf := buf } (splitNl buf)

/-- The `dockerProcess.stderr.on('data', ...)` handler. -/
def onStderrData (st : SessionState) (chunk : List Char) : SessionState :=
  { st with stderrBuf := st.stderrBuf ++ chunk }

/-- The `dockerProcess.on('close', ...)` handler.  The close event means
the process has exited, so `procRunning` becomes false. -/
def onProcessClose (st : SessionState) (code : Int) : SessionState :=
  let st1 := { st with timeoutArmed := false, procRunning := false }
  if st1.resolved then st1
  else if code ≠ 0 then
    { st1 with resolved := true,
               outcome := some (.prematureExit code (st1.stderrBuf.take 500)) }
  else st1

/-- The `dockerProcess.on('error', ...)` handler. -/
def onProcessError (st : SessionState) (msg : List Char) : SessionState :=
  let st1 := { st with timeoutArmed := false }
  if st1.resolved then st1
  else
    { st1 with resolved := true,
               outcome := some (.spawnFailure ("Failed to spawn Docker: ".data ++ msg)) }

/-- The deadline timer callback; runs only while the timer is armed. -/
def onTimeoutFire (st : SessionState) : SessionState :=
  if st.timeoutArmed then
    let st1 := { st with timeoutArmed := false }
    if st1.resolved then st1
    else
      { st1 with resolved := true, procRunning := false, outcome := some .timeout }
  else st

/-- The deferred `setTimeout(() => dockerProcess.kill(), 100)` callback. -/
def onGraceKillFire (st : SessionState) : SessionState :=
  if st.graceKillArmed then { st with graceKillArmed := false, procRunning := false }
  else st

def sessionStep (st : SessionState) : SessionEvent → SessionState
  | .stdoutData c => onStdoutData st c
  | .stderrData c => onStderrData st c
  | .processClose code => onProcessClose st code
  | .processError m => onProcessError st m
  | .timeoutFire => onTimeoutFire st
  | .graceKillFire => onGraceKillFire st

/-- The state right after `spawn`: empty buffers, unresolved, deadline
timer armed, process running. -/
def initialSession : SessionState :=
  { stdoutBuf := [], stderrBuf := [], resolved := false, timeoutArmed := true,
    graceKillArmed := false, procRunning := true, outcome := none }

def runSession (events : List SessionEvent) : SessionState :=
  events.foldl sessionStep initialSession

/-- The deadline timer duration hard-coded in `setTimeout(..., 10000)`. -/
def sessionTimeoutMs : Nat := 10000

/-- The deferred-kill delay hard-coded in `setTimeout(..., 100)`. -/
def graceKillDelayMs : Nat := 100

/-! ## Container lifecycle (src/service/utils/container.js) -/

/-- The record returned by `checkContainer`. -/
structure ContainerStatus where
  exists_ : Bool
  running : Bool
deriving DecidableEq, Repr

/-- The outcomes of the three `execAsync` docker commands a call may
issue: the `docker ps` query, `docker start`, and `docker run`.
`Except.error` models the command throwing. -/
structure ExecEnv where
  psResult : Except (List Char) (List Char)
  startResult : Except (List Char) Unit
  runResult : Except (List Char) Unit
deriving Repr

/-- The docker commands `ensureContainer` can issue, for the operation
log. -/
inductive DockerOp where
  | psQuery
  | startCmd
  | runCmd
deriving DecidableEq, Repr

def isCreateOrStart : DockerOp → Bool
  | .psQuery => false
  | .startCmd => true
  | .runCmd => true

/-- `s.split(sep)` on one separator character. -/
def splitOnChar (sep : Char) : List Char → List (List Char)
  | [] => [[]]
  | c :: cs =>
    if c = sep then [] :: splitOnChar sep cs
    else
      match splitOnChar sep cs with
      | [] => [[c]]
      | seg :: segs => (c :: seg) :: segs

/-- `s.trim()`. -/
def trimChars (cs : List Char) : List Char :=
  ((skipWs ((skipWs cs.reverse)))).reverse

def toLowerChars (cs : List Char) : List Char := cs.map Char.toLower

/-- `haystack.includes(needle)`. -/
def containsSub (needle : List Char) : List Char → Bool
  | [] => needle.isEmpty
  | c :: rest => needle.isPrefixOf (c :: rest) || containsSub needle rest

/-- `checkContainer`: run the `docker ps` query and parse its stdout.
A throw anywhere in the body (including the `status.toLowerCase()` call
on `undefined` when the output has no pipe) is caught and yields
`{exists: false, running: false}`. -/
def checkContainer (env : ExecEnv) (containerName : List Char) : ContainerStatus :=
  match env.psResult with
  | .error _ => ⟨false, false⟩
  | .ok stdout =>
    let t := trimChars stdout
    if t.isEmpty then ⟨false, false⟩
    else
      match splitOnChar '|' t with
      | name :: status :: _ =>
        ⟨decide (name = containerName), containsSub ("up".data) (toLowerChars status)⟩
      | _ => ⟨false, false⟩

/-- `ensureContainer`: returns whether the container is ready, paired
with the log of docker commands issued. -/
def ensureContainer (env : ExecEnv) (containerName : List Char) : Bool × List DockerOp :=
  let status := checkContainer env containerName
  if status.exists_ && status.running then (true, [.psQuery])
  else if status.exists_ && !status.running then
    match env.startResult with
    | .ok _ => (true, [.psQuery, .startCmd])
    | .error _ => (false, [.psQuery, .startCmd])
  else
    match env.runResult with
    | .ok _ => (true, [.psQuery, .runCmd])
    | .error _ => (false, [.psQuery, .runCmd])

/-! ## The dispatcher `callEdgeTts` -/

/-- The observable result of one `callEdgeTts` call: the initial
`ensureContainer` failure throw, or the session's settlement. -/
inductive CallOutcome where
  | workerUnavailable
  | completed (o : Outcome)
deriving DecidableEq, Repr

/-- `callEdgeTts`: ensure the container, then run the session over the
given I/O event sequence.  `none` means the returned promise never
settles. -/
def callEdgeTts (env : ExecEnv) (containerName : List Char)
    (events : List SessionEvent) : Option CallOutcome :=
  if (ensureContainer env containerName).1 = false then some .workerUnavailable
  else (runSession events).outcome.map .completed

/-! ## Characterization of the stdout handler

`lineHit` captures which decoded line is the correlated response (a
parseable segment whose `id` is 2), `settleDecision` what the session does
with it, and `applySettle` the resulting state change.  These are proof
artifacts; the lemmas below show the handler defined from the source
equals this characterization. -/

/-- The parsed id=2 message carried by one split segment, if any. -/
def lineHit (line : List Char) : Option Json :=
  if isBlank line then none
  else
    match jsonParse line with
    | none => none
    | some response => if isId2 response then some response else none

def firstHit : List (List Char) → Option Json
  | [] => none
  | l :: ls =>
    match lineHit l with
    | some r => some r
    | none => firstHit ls

/-- The first id=2 message decodable from an accumulated buffer. -/
def bufferHit (buf : List Char) : Option Json := firstHit (splitNl buf)

def resultDecision (response : Json) : Option Outcome :=
  match getField response ("result".data) with
  | some r => if truthy r then some (.success r) else none
  | none => none

/-- What settling on a parsed id=2 message produces: a rejection for a
truthy error field, a resolution for a truthy result field, or nothing
(the call is marked resolved but never settles). -/
def settleDecision (response : Json) : Option Outcome :=
  match getField response ("error".data) with
  | some e => if truthy e then some (.remoteError (errorMessageOf e)) else resultDecision response
  | none => resultDecision response

/-- The state change performed on the first parsed id=2 message. -/
def applySettle (st : SessionState) (response : Json) : SessionState :=
  let st1 : SessionState := { st with resolved := true, timeoutArmed := false }
  match settleDecision response with
  | some (.remoteError m) => { st1 with procRunning := false, outcome := some (.remoteError m) }
  | some (.success r) => { st1 with graceKillArmed := true, outcome := some (.success r) }
  | _ => st1

theorem applySettle_resolved (st : SessionState) (r : Json) :
    (applySettle st r).resolved = true := by
  unfold applySettle
  split <;> rfl

theorem handleLine_resolved (st : SessionState) (line : List Char)
    (h : st.resolved = true) : handleLine st line = (st, false) := by
  unfold handleLine
  split
  · rfl
  · cases hp : jsonParse line with
    | none => rfl
    | some response => simp [h]

theorem handleLines_resolved (st : SessionState) (ls : List (List Char))
    (h : st.resolved = true) : handleLines st ls = st := by
  induction ls with
  | nil => rfl
  | cons l ls ih => simp [handleLines, handleLine_resolved st l h, ih]

theorem handleLine_eq (st : SessionState) (line : List Char)
    (h : st.resolved = false) :
    handleLine st line =
      match lineHit line with
      | none => (st, false)
      | some r => (applySettle st r, (settleDecision r).isSome) := by
  unfold handleLine lineHit
  split
  · rfl
  · cases hp : jsonParse line with
    | none => rfl
    | some response =>
      cases hid : isId2 response with
      | false => simp [h, hid]
      | true =>
        simp only [h, hid, Bool.not_false, Bool.and_true, if_true]
        unfold applySettle settleDecision resultDecision resultBranch
        cases he : getField response ("error".data) with
        | some e =>
          cases ht : truthy e with
          | true => simp [he, ht]
          | false =>
            simp only [he, ht, if_false, Bool.false_eq_true]
            cases hr : getField response ("result".data) with
            | some r =>
              cases htr : truthy r with
              | true => simp [hr, htr]
              | false => simp [hr, htr]
            | none => simp [hr]
        | none =>
          simp only [he]
          cases hr : getField response ("result".data) with
          | some r =>
            cases htr : truthy r with
            | true => simp [hr, htr]
            | false => simp [hr, htr]
          | none => simp [hr]

theorem handleLines_eq (st : SessionState) (ls : List (List Char))
    (h : st.resolved = false) :
    handleLines st ls =
      match firstHit ls with
      | none => st
      | some r => applySettle st r := by
  induction ls with
  | nil => rfl
  | cons l ls ih =>
    rw [handleLines, handleLine_eq st l h]
    cases hl : lineHit l with
    | none => simpa [firstHit, hl] using ih
    | some r =>
      simp only [firstHit, hl]
      cases hd : (settleDecision r).isSome with
      | true => simp
      | false =>
        simp only [Bool.false_eq_true, if_false]
        exact handleLines_resolved _ _ (applySettle_resolved st r)

theorem onStdoutData_resolved (st : SessionState) (c : List Char)
    (h : st.resolved = true) :
    onStdoutData st c = { st with stdoutBuf := st.stdoutBuf ++ c } := by
  unfold onStdoutData
  exact handleLines_resolved _ _ h

theorem onStdoutData_eq (st : SessionState) (c : List Char)
    (h : st.resolved = false) :
    onStdoutData st c =
      match bufferHit (st.stdoutBuf ++ c) with
      | none => { st with stdoutBuf := st.stdoutBuf ++ c }
      | some r => applySettle { st with stdoutBuf := st.stdoutBuf ++ c } r := by
  unfold onStdoutData bufferHit
  exact handleLines_eq _ _ h

/-! ## Session invariants -/

/-- Invariant of every reachable session state: an unresolved session has
no settlement, and a settled session other than a spawn failure has its
process killed or a deferred kill still scheduled. -/
def SessionInv (st : SessionState) : Prop :=
  (st.resolved = false → st.outcome = none) ∧
  (∀ o, st.outcome = some o → isSpawnFailure o = false →
    st.procRunning = false ∨ st.graceKillArmed = true)

theorem sessionStep_resolved_mono (st : SessionState) (e : SessionEvent)
    (h : st.resolved = true) :
    (sessionStep st e).resolved = true ∧ (sessionStep st e).outcome = st.outcome := by
  cases e with
  | stdoutData c => rw [sessionStep, onStdoutData_resolved st c h]; exact ⟨h, rfl⟩
  | stderrData c => exact ⟨h, rfl⟩
  | processClose code => simp [sessionStep, onProcessClose, h]
  | processError m => simp [sessionStep, onProcessError, h]
  | timeoutFire =>
    simp only [sessionStep, onTimeoutFire]
    split
    · simp [h]
    · exact ⟨h, rfl⟩
  | graceKillFire =>
    simp only [sessionStep, onGraceKillFire]
    split
    · exact ⟨h, rfl⟩
    · exact ⟨h, rfl⟩

theorem applySettle_inv (st : SessionState) (r : Json)
    (hb : ∀ o, st.outcome = some o → isSpawnFailure o = false →
      st.procRunning = false ∨ st.graceKillArmed = true) :
    ∀ o, (applySettle st r).outcome = some o → isSpawnFailure o = false →
      (applySettle st r).procRunning = false ∨ (applySettle st r).graceKillArmed = true := by
  intro o ho hsf
  unfold applySettle at *
  cases hd : settleDecision r with
  | none => simp only [hd] at ho ⊢; exact hb o ho hsf
  | some oc =>
    cases oc with
    | success res => simp [hd]
    | remoteError m => simp [hd]
    | timeout => simp only [hd] at ho ⊢; exact hb o ho hsf
    | prematureExit c s => simp only [hd] at ho ⊢; exact hb o ho hsf
    | spawnFailure m => simp only [hd] at ho ⊢; exact hb o ho hsf

theorem sessionStep_inv (st : SessionState) (e : SessionEvent)
    (h : SessionInv st) : SessionInv (sessionStep st e) := by
  obtain ⟨h1, h2⟩ := h
  cases e with
  | stdoutData c =>
    cases hres : st.resolved with
    | true =>
      rw [sessionStep, onStdoutData_resolved st c hres]
      exact ⟨fun hf => absurd (hres.symm.trans hf) (by simp),
             fun o ho hsf => h2 o ho hsf⟩
    | false =>
      rw [sessionStep, onStdoutData_eq st c hres]
      cases hb : bufferHit (st.stdoutBuf ++ c) with
      | none => exact ⟨fun _ => h1 hres, fun o ho hsf => h2 o ho hsf⟩
      | some r =>
        refine ⟨fun hf => ?_, ?_⟩
        · rw [applySettle_resolved] at hf; cases hf
        · exact applySettle_inv _ r (fun o ho hsf => h2 o ho hsf)
  | stderrData c => exact ⟨fun hf => h1 hf, fun o ho hsf => h2 o ho hsf⟩
  | processClose code =>
    cases hres : st.resolved with
    | true =>
      constructor
      · intro hf; simp [sessionStep, onProcessClose, hres] at hf
      · intro o ho hsf; simp [sessionStep, onProcessClose, hres]
    | false =>
      by_cases hc : code = 0
      · constructor
        · intro _; simpa [sessionStep, onProcessClose, hres, hc] using h1 hres
        · intro o ho hsf; simp [sessionStep, onProcessClose, hres, hc]
      · constructor
        · intro hf; simp [sessionStep, onProcessClose, hres, hc] at hf
        · intro o ho hsf; simp [sessionStep, onProcessClose, hres, hc]
  | processError m =>
    cases hres : st.resolved with
    | true =>
      constructor
      · intro hf; simp [sessionStep, onProcessError, hres] at hf
      · intro o ho hsf
        simp only [sessionStep, onProcessError, hres, if_true] at ho ⊢
        exact h2 o ho hsf
    | false =>
      constructor
      · intro hf; simp [sessionStep, onProcessError, hres] at hf
      · intro o ho hsf
        simp only [sessionStep, onProcessError, hres] at ho
        simp only [Bool.false_eq_true, if_false, Option.some.injEq] at ho
        rw [← ho] at hsf
        simp [isSpawnFailure] at hsf
  | timeoutFire =>
    by_cases harm : st.timeoutArmed = true
    · cases hres : st.resolved with
      | true =>
        constructor
        · intro hf; simp [sessionStep, onTimeoutFire, harm, hres] at hf
        · intro o ho hsf
          simp only [sessionStep, onTimeoutFire, harm, hres, if_true] at ho ⊢
          exact h2 o ho hsf
      | false =>
        constructor
        · intro hf; simp [sessionStep, onTimeoutFire, harm, hres] at hf
        · intro o ho hsf; simp [sessionStep, onTimeoutFire, harm, hres]
    · have harm' : st.timeoutArmed = false := by
        cases hv : st.timeoutArmed
        · rfl
        · exact absurd hv harm
      constructor
      · intro hf
        simp only [sessionStep, onTimeoutFire, harm', Bool.false_eq_true, if_false] at hf ⊢
        exact h1 hf
      · intro o ho hsf
        simp only [sessionStep, onTimeoutFire, harm', Bool.false_eq_true, if_false] at ho ⊢
        exact h2 o ho hsf
  | graceKillFire =>
    by_cases harm : st.graceKillArmed = true
    · constructor
      · intro hf
        simp only [sessionStep, onGraceKillFire, harm, if_true] at hf ⊢
        exact h1 hf
      · intro o ho hsf; simp [sessionStep, onGraceKillFire, harm]
    · have harm' : st.graceKillArmed = false := by
        cases hv : st.graceKillArmed
        · rfl
        · exact absurd hv harm
      constructor
      · intro hf
        simp only [sessionStep, onGraceKillFire, harm', Bool.false_eq_true, if_false] at hf ⊢
        exact h1 hf
      · intro o ho hsf
        simp only [sessionStep, onGraceKillFire, harm', Bool.false_eq_true, if_false] at ho
        rcases h2 o ho hsf with hp | hg
        · simp only [sessionStep, onGraceKillFire, harm', Bool.false_eq_true, if_false]
          exact Or.inl hp
        · exact absurd hg (by simp [harm'])

theorem initialSession_inv : SessionInv initialSession :=
  ⟨fun _ => rfl, fun o ho _ => by cases ho⟩

theorem foldl_inv (es : List SessionEvent) (st : SessionState)
    (h : SessionInv st) : SessionInv (es.foldl sessionStep st) := by
  induction es generalizing st with
  | nil => exact h
  | cons e es ih => exact ih _ (sessionStep_inv st e h)

theorem runSession_inv (es : List SessionEvent) : SessionInv (runSession es) :=
  foldl_inv es initialSession initialSession_inv

theorem foldl_outcome_stable (es : List SessionEvent) (st : SessionState)
    (h : SessionInv st) (o : Outcome) (ho : st.outcome = some o) :
    (es.foldl sessionStep st).outcome = some o := by
  induction es generalizing st with
  | nil => exact ho
  | cons e es ih =>
    have hres : st.resolved = true := by
      cases hr : st.resolved with
      | true => rfl
      | false => rw [h.1 hr] at ho; cases ho
    have hm := sessionStep_resolved_mono st e hres
    exact ih _ (sessionStep_inv st e h) (hm.2.trans ho)

theorem skipWs_of_all_ws (s : List Char) (h : s.all isWsChar = true) :
    skipWs s = [] := by
  induction s with
  | nil => rfl
  | cons c cs ih =>
    simp only [List.all_cons, Bool.and_eq_true] at h
    simp [skipWs, h.1, ih h.2]

theorem parseValue_of_ws_nil (fuel : Nat) (s : List Char) (h : skipWs s = []) :
    parseValue fuel s = none := by
  cases fuel with
  | zero => rfl
  | succ n => rw [parseValue, h]

theorem jsonParse_some_not_blank (s : List Char) (v : Json)
    (h : jsonParse s = some v) : isBlank s = false := by
  cases hb : isBlank s with
  | false => rfl
  | true =>
    exfalso
    unfold jsonParse at h
    rw [parseValue_of_ws_nil _ _ (skipWs_of_all_ws s hb)] at h
    cases h

theorem splitNl_of_no_newline (s : List Char) (h : ('\n') ∉ s) :
    splitNl s = [s] := by
  induction s with
  | nil => rfl
  | cons c cs ih =>
    simp only [List.mem_cons, not_or] at h
    rw [splitNl, if_neg (fun hc => h.1 hc.symm), ih h.2]

theorem bufferHit_of_single_line (s : List Char) (response : Json)
    (hnl : ('\n') ∉ s) (hp : jsonParse s = some response)
    (hid : isId2 response = true) : bufferHit s = some response := by
  unfold bufferHit
  rw [splitNl_of_no_newline s hnl]
  simp [firstHit, lineHit, jsonParse_some_not_blank s response hp, hp, hid]

/-! ## Sample inputs used by witnesses -/

/-- A worker response line resolving the call: `(id 2, result ok:true)`. -/
def sampleResultLine : List Char :=
  "\x7b\"id\":2,\"result\":\x7b\"ok\":true\x7d\x7d\n".data

def sampleResultJson : Json := .obj [("ok".data, .bool true)]

/-- A worker response line rejecting the call with message `bad voice`. -/
def sampleErrorLine : List Char :=
  "\x7b\"id\":2,\"error\":\x7b\"message\":\"bad voice\"\x7d\x7d\n".data

/-- An exec environment whose `docker ps` reports the named container
up and running. -/
def envUp : ExecEnv :=
  ⟨.ok ("edge-tts|Up 2 hours".data), .ok (), .ok ()⟩

/-! ## Claims -/

/-- C1 (counterexample): the claim that every invoke call settles with
exactly one outcome is false: when the channel process closes with exit
code 0 before any id=2 response, the call settles with zero outcomes —
the deadline timer has been cleared and no kill is pending, so nothing
can ever settle the promise. -/
theorem claim_C1_counterexample :
    callEdgeTts envUp ("edge-tts".data) [SessionEvent.processClose 0] = none ∧
    (runSession [SessionEvent.processClose 0]).timeoutArmed = false ∧
    (runSession [SessionEvent.processClose 0]).graceKillArmed = false := by
  decide

/-- C1 (amended): every invoke call settles with at most one outcome,
drawn from the taxonomy (success, WorkerUnavailable, SpawnFailure,
ProtocolTimeout, RemoteToolError, PrematureExit): once the call has
settled, no continuation of the I/O event sequence changes the outcome.
A call may however settle zero times (see the counterexample). -/
theorem claim_C1_at_most_one_settlement :
    ∀ (env : ExecEnv) (name : List Char) (es es' : List SessionEvent)
      (o : CallOutcome),
      callEdgeTts env name es = some o →
      callEdgeTts env name (es ++ es') = some o := by
  intro env name es es' o h
  unfold callEdgeTts at *
  by_cases hr : (ensureContainer env name).1 = false
  · rw [if_pos hr] at h ⊢; exact h
  · rw [if_neg hr] at h ⊢
    cases ho : (runSession es).outcome with
    | none => rw [ho] at h; cases h
    | some oc =>
      rw [ho] at h
      have hst : (runSession (es ++ es')).outcome = some oc := by
        rw [runSession, List.foldl_append]
        exact foldl_outcome_stable es' (runSession es) (runSession_inv es) oc ho
      rw [hst]
      exact h

theorem claim_C1_witness :
    callEdgeTts envUp ("edge-tts".data) [SessionEvent.stdoutData sampleResultLine]
      = some (.completed (.success sampleResultJson)) ∧
    callEdgeTts envUp ("edge-tts".data)
      ([SessionEvent.stdoutData sampleResultLine] ++ [SessionEvent.processClose 0])
      = some (.completed (.success sampleResultJson)) :=
  ⟨by decide,
   claim_C1_at_most_one_settlement envUp ("edge-tts".data)
     [SessionEvent.stdoutData sampleResultLine] [SessionEvent.processClose 0]
     (.completed (.success sampleResultJson)) (by decide)⟩

/-- C2: in every session, on every settled exit path other than spawn
failure — success, remote tool error, timeout, premature exit — once the
deferred kill timer is no longer pending, the channel process is
terminated. -/
theorem claim_C2_process_terminated :
    ∀ (es : List SessionEvent) (o : Outcome),
      (runSession es).outcome = some o → isSpawnFailure o = false →
      (runSession es).graceKillArmed = false →
      (runSession es).procRunning = false := by
  intro es o ho hsf hg
  rcases (runSession_inv es).2 o ho hsf with hp | hgr
  · exact hp
  · rw [hg] at hgr; cases hgr

theorem claim_C2_witness :
    (runSession [SessionEvent.stdoutData sampleErrorLine]).procRunning = false :=
  claim_C2_process_terminated [SessionEvent.stdoutData sampleErrorLine]
    (.remoteError ("bad voice".data)) (by decide) (by decide) (by decide)

/-- C4: the `resolved` flag never transitions back from true, and at
most one settlement is performed: once resolved, any further event
leaves `resolved` true and the outcome unchanged; while unresolved no
settlement has been performed. -/
theorem claim_C4_resolved_monotone :
    ∀ (es : List SessionEvent) (e : SessionEvent),
      ((runSession es).resolved = true →
        (runSession (es ++ [e])).resolved = true ∧
        (runSession (es ++ [e])).outcome = (runSession es).outcome) ∧
      ((runSession es).resolved = false → (runSession es).outcome = none) := by
  intro es e
  constructor
  · intro h
    have hstep : runSession (es ++ [e]) = sessionStep (runSession es) e := by
      rw [runSession, List.foldl_append]
      rfl
    rw [hstep]
    exact sessionStep_resolved_mono (runSession es) e h
  · exact (runSession_inv es).1

theorem claim_C4_witness :
    (runSession ([SessionEvent.stdoutData sampleErrorLine]
        ++ [SessionEvent.timeoutFire])).resolved = true ∧
    (runSession ([SessionEvent.stdoutData sampleErrorLine]
        ++ [SessionEvent.timeoutFire])).outcome
      = (runSession [SessionEvent.stdoutData sampleErrorLine]).outcome :=
  (claim_C4_resolved_monotone [SessionEvent.stdoutData sampleErrorLine]
    SessionEvent.timeoutFire).1 (by decide)

/-- C5 (counterexample): the deadline timer duration is the hard-coded
10000 ms of `setTimeout(..., 10000)`; `callEdgeTts` takes no `timeoutMs`
argument, so the duration is in particular not the 200 ms of the
specification's `timeoutMs=200` scenario. -/
theorem claim_C5_counterexample :
    sessionTimeoutMs = 10000 ∧ sessionTimeoutMs ≠ 200 := by decide

/-- C5 (amended): a deadline timer of fixed duration 10000 ms is armed at
spawn time; if it fires before the call is settled, the channel process
is force-terminated and the call settles with the timeout error. -/
theorem claim_C5_fixed_timeout_fires :
    sessionTimeoutMs = 10000 ∧ initialSession.timeoutArmed = true ∧
    ∀ es : List SessionEvent,
      (runSession es).resolved = false → (runSession es).timeoutArmed = true →
      (sessionStep (runSession es) SessionEvent.timeoutFire).outcome
          = some Outcome.timeout ∧
      (sessionStep (runSession es) SessionEvent.timeoutFire).procRunning = false := by
  refine ⟨rfl, rfl, ?_⟩
  intro es h1 h2
  constructor <;> simp [sessionStep, onTimeoutFire, h1, h2]

theorem claim_C5_witness :
    (sessionStep (runSession []) SessionEvent.timeoutFire).outcome
        = some Outcome.timeout ∧
    (sessionStep (runSession []) SessionEvent.timeoutFire).procRunning = false :=
  claim_C5_fixed_timeout_fires.2.2 [] (by decide) (by decide)

/-- C8: if the channel process closes with exit code 0 while the call is
unresolved, the close handler clears the deadline timer but performs no
settlement: the call stays unresolved with no outcome. -/
theorem claim_C8_clean_close_no_settlement :
    ∀ es : List SessionEvent, (runSession es).resolved = false →
      (sessionStep (runSession es) (SessionEvent.processClose 0)).timeoutArmed
          = false ∧
      (sessionStep (runSession es) (SessionEvent.processClose 0)).resolved
          = false ∧
      (sessionStep (runSession es) (SessionEvent.processClose 0)).outcome
          = none := by
  intro es h
  have hout := (runSession_inv es).1 h
  refine ⟨?_, ?_, ?_⟩ <;> simp [sessionStep, onProcessClose, h, hout]

theorem claim_C8_witness :
    (sessionStep (runSession []) (SessionEvent.processClose 0)).timeoutArmed
        = false ∧
    (sessionStep (runSession []) (SessionEvent.processClose 0)).resolved
        = false ∧
    (sessionStep (runSession []) (SessionEvent.processClose 0)).outcome = none :=
  claim_C8_clean_close_no_settlement [] (by decide)

/-- C6: when the queried state of the worker is exists-and-running,
`ensureContainer` returns true and issues no create or start command;
two successive calls, each finding the worker running, together issue
zero create/start commands. -/
theorem claim_C6_ensure_idempotent :
    ∀ (env1 env2 : ExecEnv) (name : List Char),
      (checkContainer env1 name).exists_ = true →
      (checkContainer env1 name).running = true →
      (checkContainer env2 name).exists_ = true →
      (checkContainer env2 name).running = true →
      ensureContainer env1 name = (true, [DockerOp.psQuery]) ∧
      ((ensureContainer env1 name).2 ++ (ensureContainer env2 name).2).filter
          isCreateOrStart = [] := by
  intro env1 env2 name h1 h2 h3 h4
  have e1 : ensureContainer env1 name = (true, [DockerOp.psQuery]) := by
    unfold ensureContainer
    simp [h1, h2]
  have e2 : ensureContainer env2 name = (true, [DockerOp.psQuery]) := by
    unfold ensureContainer
    simp [h3, h4]
  rw [e1, e2]
  exact ⟨rfl, rfl⟩

theorem claim_C6_witness :
    ensureContainer envUp ("edge-tts".data) = (true, [DockerOp.psQuery]) ∧
    ((ensureContainer envUp ("edge-tts".data)).2
        ++ (ensureContainer envUp ("edge-tts".data)).2).filter isCreateOrStart
      = [] :=
  claim_C6_ensure_idempotent envUp envUp ("edge-tts".data)
    (by decide) (by decide) (by decide) (by decide)

/-- C7: when the first parsed id=2 message carries a truthy error field
whose message is a nonempty string, the call settles with a remote tool
error carrying that message; when it carries no error field and a truthy
result field, the call settles with success carrying that result. -/
theorem claim_C7_error_result_settlement :
    ∀ (s : List Char) (response : Json),
      ('\n') ∉ s → jsonParse s = some response → isId2 response = true →
      ((∀ (e : Json) (m : List Char),
          getField response ("error".data) = some e → truthy e = true →
          getField e ("message".data) = some (Json.str m) → m ≠ [] →
          (runSession [SessionEvent.stdoutData s]).outcome
            = some (Outcome.remoteError m)) ∧
       (∀ r : Json,
          getField response ("error".data) = none →
          getField response ("result".data) = some r → truthy r = true →
          (runSession [SessionEvent.stdoutData s]).outcome
            = some (Outcome.success r))) := by
  intro s response hnl hp hid
  have hhit : bufferHit s = some response := bufferHit_of_single_line s response hnl hp hid
  have hrun : runSession [SessionEvent.stdoutData s]
      = applySettle { initialSession with stdoutBuf := s } response := by
    show onStdoutData initialSession s = _
    rw [onStdoutData_eq initialSession s rfl]
    simp only [initialSession, List.nil_append, hhit]
  constructor
  · intro e m he hte hm hmne
    have hie : m.isEmpty = false := by
      cases m with
      | nil => exact absurd rfl hmne
      | cons c ms => rfl
    have hem : errorMessageOf e = m := by
      unfold errorMessageOf
      simp only [hm, truthy, hie, Bool.not_false, if_true]
      rfl
    have hsd : settleDecision response = some (Outcome.remoteError m) := by
      simp only [settleDecision, he, hte, if_true, hem]
    rw [hrun]
    simp [applySettle, hsd]
  · intro r he hr htr
    have hsd : settleDecision response = some (Outcome.success r) := by
      simp only [settleDecision, resultDecision, he, hr, htr, if_true]
    rw [hrun]
    simp [applySettle, hsd]

def sampleErrorObj : Json := .obj [("message".data, .str ("bad voice".data))]

def sampleErrorResponse : Json := .obj [("id".data, .num 2), ("error".data, sampleErrorObj)]

def sampleResultResponse : Json :=
  .obj [("id".data, .num 2), ("result".data, sampleResultJson)]

/-- The error response line without a trailing newline. -/
def sampleErrorBody : List Char :=
  "\x7b\"id\":2,\"error\":\x7b\"message\":\"bad voice\"\x7d\x7d".data

/-- The result response line without a trailing newline. -/
def sampleResultBody : List Char :=
  "\x7b\"id\":2,\"result\":\x7b\"ok\":true\x7d\x7d".data

theorem claim_C7_witness :
    (runSession [SessionEvent.stdoutData sampleErrorBody]).outcome
        = some (Outcome.remoteError ("bad voice".data)) ∧
    (runSession [SessionEvent.stdoutData sampleResultBody]).outcome
        = some (Outcome.success sampleResultJson) :=
  ⟨(claim_C7_error_result_settlement sampleErrorBody sampleErrorResponse
      (by decide) (by decide) (by decide)).1 sampleErrorObj ("bad voice".data)
      (by decide) (by decide) (by decide) (by decide),
   (claim_C7_error_result_settlement sampleResultBody sampleResultResponse
      (by decide) (by decide) (by decide)).2 sampleResultJson
      (by decide) (by decide) (by decide)⟩

/-- C9: the stdout handler re-splits the entire accumulated buffer on
every data event and attempts a parse of the trailing segment not yet
terminated by a newline: a complete id=2 result object delivered with no
newline at all, split across two data events, still settles the call. -/
theorem claim_C9_trailing_segment_parsed :
    ∀ (pre post : List Char) (response r : Json),
      ('\n') ∉ pre → ('\n') ∉ post →
      bufferHit pre = none →
      jsonParse (pre ++ post) = some response → isId2 response = true →
      getField response ("error".data) = none →
      getField response ("result".data) = some r → truthy r = true →
      (runSession [SessionEvent.stdoutData pre,
                   SessionEvent.stdoutData post]).outcome
        = some (Outcome.success r) := by
  intro pre post response r hnl1 hnl2 hpre hp hid he hr htr
  have hnl : ('\n') ∉ pre ++ post := by
    intro hm
    rcases List.mem_append.mp hm with h | h
    · exact hnl1 h
    · exact hnl2 h
  have hhit : bufferHit (pre ++ post) = some response :=
    bufferHit_of_single_line _ response hnl hp hid
  have h1 : sessionStep initialSession (SessionEvent.stdoutData pre)
      = { initialSession with stdoutBuf := pre } := by
    show onStdoutData initialSession pre = _
    rw [onStdoutData_eq initialSession pre rfl]
    simp only [initialSession, List.nil_append, hpre]
  have hsd : settleDecision response = some (Outcome.success r) := by
    simp only [settleDecision, resultDecision, he, hr, htr, if_true]
  have h2 : runSession [SessionEvent.stdoutData pre, SessionEvent.stdoutData post]
      = applySettle { initialSession with stdoutBuf := pre ++ post } response := by
    show sessionStep (sessionStep initialSession (SessionEvent.stdoutData pre))
        (SessionEvent.stdoutData post) = _
    rw [h1]
    show onStdoutData { initialSession with stdoutBuf := pre } post = _
    rw [onStdoutData_eq _ post rfl]
    simp only [hhit]
  rw [h2]
  simp [applySettle, hsd]

theorem claim_C9_witness :
    (runSession [SessionEvent.stdoutData ("\x7b\"id\":2,\"res".data),
                 SessionEvent.stdoutData ("ult\":\x7b\"ok\":true\x7d\x7d".data)]).outcome
      = some (Outcome.success sampleResultJson) :=
  claim_C9_trailing_segment_parsed ("\x7b\"id\":2,\"res".data)
    ("ult\":\x7b\"ok\":true\x7d\x7d".data) sampleResultResponse sampleResultJson
    (by decide) (by decide) (by decide) (by decide) (by decide) (by decide)
    (by decide) (by decide)

/-- C10: when the `docker ps` query itself throws, `checkContainer`
returns exists:false running:false — indistinguishable from an absent
worker — and `ensureContainer` proceeds to attempt create-and-start
(issues the `docker run` command) instead of reporting the query
failure. -/
theorem claim_C10_query_failure_as_absent :
    ∀ (env : ExecEnv) (name msg : List Char),
      env.psResult = .error msg →
      checkContainer env name = ⟨false, false⟩ ∧
      checkContainer env name
          = checkContainer { env with psResult := .ok [] } name ∧
      (ensureContainer env name).2 = [DockerOp.psQuery, DockerOp.runCmd] := by
  intro env name msg h
  have hc : checkContainer env name = ⟨false, false⟩ := by
    unfold checkContainer
    rw [h]
  refine ⟨hc, ?_, ?_⟩
  · rw [hc]; rfl
  · unfold ensureContainer
    rw [hc]
    cases env.runResult <;> rfl

def envPsFails : ExecEnv := ⟨.error ("boom".data), .ok (), .ok ()⟩

theorem claim_C10_witness :
    checkContainer envPsFails ("edge-tts".data) = ⟨false, false⟩ ∧
    checkContainer envPsFails ("edge-tts".data)
        = checkContainer { envPsFails with psResult := .ok [] } ("edge-tts".data) ∧
    (ensureContainer envPsFails ("edge-tts".data)).2
        = [DockerOp.psQuery, DockerOp.runCmd] :=
  claim_C10_query_failure_as_absent envPsFails ("edge-tts".data) ("boom".data) rfl

/-! ## Chunking invariance (C3)

Settlement is decided by re-splitting the whole accumulated buffer, so
the only way a chunk boundary can influence the outcome is when some
strict prefix of the output has a decodable id=2 message that the full
output does not have (a trailing segment that happens to parse before
further bytes arrive).  `chunkSafe` rules that out; within it, delivery
is invariant under arbitrary fragmentation. -/

/-- Every prefix of the output either decodes no id=2 message yet, or
decodes exactly the id=2 message the full output decodes. -/
def chunkSafe (S : List Char) : Bool :=
  (S.inits).all fun p =>
    match bufferHit p with
    | none => true
    | some r => decide (bufferHit S = some r)

theorem chunkSafe_spec (S : List Char) (hsafe : chunkSafe S = true) :
    ∀ p, p <+: S → bufferHit p = none ∨
      (∃ r, bufferHit p = some r ∧ bufferHit S = some r) := by
  intro p hp
  have hmem : p ∈ S.inits := (List.mem_inits _ _).mpr hp
  have hall := List.all_eq_true.mp hsafe p hmem
  cases hb : bufferHit p with
  | none => exact Or.inl rfl
  | some r =>
    rw [hb] at hall
    exact Or.inr ⟨r, rfl, of_decide_eq_true hall⟩

theorem applySettle_stdoutBuf (st : SessionState) (r : Json) :
    (applySettle st r).stdoutBuf = st.stdoutBuf := by
  unfold applySettle
  split <;> rfl

theorem applySettle_set_stdoutBuf (st : SessionState) (r : Json) (b : List Char) :
    applySettle { st with stdoutBuf := b } r
      = { applySettle st r with stdoutBuf := b } := by
  unfold applySettle
  split <;> rfl

theorem foldl_data_resolved (chunks : List (List Char)) :
    ∀ (st : SessionState), st.resolved = true →
    (chunks.map SessionEvent.stdoutData).foldl sessionStep st
      = { st with stdoutBuf := st.stdoutBuf ++ chunks.flatten } := by
  induction chunks with
  | nil => intro st _; simp
  | cons c cs ih =>
    intro st h
    simp only [List.map_cons, List.foldl_cons]
    rw [show sessionStep st (SessionEvent.stdoutData c)
          = { st with stdoutBuf := st.stdoutBuf ++ c } from onStdoutData_resolved st c h]
    rw [ih { st with stdoutBuf := st.stdoutBuf ++ c } h]
    simp [List.append_assoc]

theorem foldl_data_no_hit (chunks : List (List Char)) :
    ∀ (st : SessionState), st.resolved = false →
    (∀ k, bufferHit (st.stdoutBuf ++ (chunks.take k).flatten) = none) →
    (chunks.map SessionEvent.stdoutData).foldl sessionStep st
      = { st with stdoutBuf := st.stdoutBuf ++ chunks.flatten } := by
  induction chunks with
  | nil => intro st _ _; simp
  | cons c cs ih =>
    intro st hres hall
    have h1 : bufferHit (st.stdoutBuf ++ c) = none := by
      have := hall 1
      simpa using this
    simp only [List.map_cons, List.foldl_cons]
    rw [show sessionStep st (SessionEvent.stdoutData c)
          = { st with stdoutBuf := st.stdoutBuf ++ c } by
        show onStdoutData st c = _
        rw [onStdoutData_eq st c hres, h1]]
    rw [ih { st with stdoutBuf := st.stdoutBuf ++ c } hres
          (fun k => by
            simpa [List.take_succ_cons, List.flatten_cons, ← List.append_assoc]
              using hall (k + 1))]
    simp [List.append_assoc]

theorem foldl_data_hit (chunks : List (List Char)) :
    ∀ (st : SessionState) (r : Json), st.resolved = false →
    bufferHit st.stdoutBuf = none →
    (∀ k, bufferHit (st.stdoutBuf ++ (chunks.take k).flatten) = none ∨
          bufferHit (st.stdoutBuf ++ (chunks.take k).flatten) = some r) →
    bufferHit (st.stdoutBuf ++ chunks.flatten) = some r →
    (chunks.map SessionEvent.stdoutData).foldl sessionStep st
      = applySettle { st with stdoutBuf := st.stdoutBuf ++ chunks.flatten } r := by
  induction chunks with
  | nil =>
    intro st r _ hbuf _ hfin
    simp only [List.flatten_nil, List.append_nil] at hfin
    rw [hbuf] at hfin
    cases hfin
  | cons c cs ih =>
    intro st r hres hbuf hall hfin
    have h1 : bufferHit (st.stdoutBuf ++ c) = none ∨
        bufferHit (st.stdoutBuf ++ c) = some r := by
      have := hall 1
      simpa using this
    simp only [List.map_cons, List.foldl_cons]
    rcases h1 with h1 | h1
    · rw [show sessionStep st (SessionEvent.stdoutData c)
            = { st with stdoutBuf := st.stdoutBuf ++ c } by
          show onStdoutData st c = _
          rw [onStdoutData_eq st c hres, h1]]
      rw [ih { st with stdoutBuf := st.stdoutBuf ++ c } r hres h1
            (fun k => by
              simpa [List.take_succ_cons, List.flatten_cons, ← List.append_assoc]
                using hall (k + 1))
            (by simpa [List.flatten_cons, ← List.append_assoc] using hfin)]
      simp only [applySettle_set_stdoutBuf]
      simp [List.append_assoc]
    · rw [show sessionStep st (SessionEvent.stdoutData c)
            = applySettle { st with stdoutBuf := st.stdoutBuf ++ c } r by
          show onStdoutData st c = _
          rw [onStdoutData_eq st c hres, h1]]
      rw [foldl_data_resolved cs _ (applySettle_resolved _ r)]
      simp only [applySettle_set_stdoutBuf]
      simp [List.append_assoc]

/-- C3 (counterexample): delivery is not invariant under arbitrary
fragmentation: the same bytes `(id 2, result 1, then junk, newline)`
yield no settlement when delivered in one fragment, but settle with
success when a fragment boundary falls right after the closing brace
(the trailing segment parses before the junk byte arrives). -/
theorem claim_C3_counterexample :
    ("\x7b\"id\":2,\"result\":1\x7d".data) ++ ("x\n".data)
        = "\x7b\"id\":2,\"result\":1\x7dx\n".data ∧
    (runSession [SessionEvent.stdoutData
        ("\x7b\"id\":2,\"result\":1\x7dx\n".data)]).outcome = none ∧
    (runSession [SessionEvent.stdoutData ("\x7b\"id\":2,\"result\":1\x7d".data),
                 SessionEvent.stdoutData ("x\n".data)]).outcome
      = some (Outcome.success (Json.num 1)) := by
  refine ⟨by decide, by decide, by decide⟩

/-- C3 (amended): delivery across arbitrary fragments is outcome-
invariant for every output in which no strict prefix decodes an id=2
message different from the one the full output decodes (`chunkSafe`);
in particular a newline-terminated id=2 response split across N
fragments settles identically to the whole response in one fragment. -/
theorem claim_C3_chunk_invariance :
    ∀ chunks : List (List Char),
      chunkSafe chunks.flatten = true →
      (runSession (chunks.map SessionEvent.stdoutData)).outcome
        = (runSession [SessionEvent.stdoutData chunks.flatten]).outcome := by
  intro chunks hsafe
  have hpref := chunkSafe_spec chunks.flatten hsafe
  have hbound : ∀ k, (chunks.take k).flatten <+: chunks.flatten := by
    intro k
    conv_rhs => rw [← List.take_append_drop k chunks]
    rw [List.flatten_append]
    exact ⟨_, rfl⟩
  cases hfin : bufferHit chunks.flatten with
  | none =>
    have hall : ∀ k,
        bufferHit (initialSession.stdoutBuf ++ (chunks.take k).flatten) = none := by
      intro k
      rcases hpref _ (hbound k) with h | ⟨r, h1, h2⟩
      · simpa [initialSession] using h
      · rw [hfin] at h2; cases h2
    have lhs := foldl_data_no_hit chunks initialSession rfl hall
    have rhs : runSession [SessionEvent.stdoutData chunks.flatten]
        = { initialSession with stdoutBuf := chunks.flatten } := by
      show onStdoutData initialSession chunks.flatten = _
      rw [onStdoutData_eq _ _ rfl]
      simp only [initialSession, List.nil_append, hfin]
    rw [runSession, lhs, rhs]
  | some r =>
    have hall : ∀ k,
        bufferHit (initialSession.stdoutBuf ++ (chunks.take k).flatten) = none ∨
        bufferHit (initialSession.stdoutBuf ++ (chunks.take k).flatten) = some r := by
      intro k
      rcases hpref _ (hbound k) with h | ⟨r', h1, h2⟩
      · left; simpa [initialSession] using h
      · right
        rw [hfin] at h2
        injection h2 with h3
        rw [← h3] at h1
        simpa [initialSession] using h1
    have hfin' : bufferHit (initialSession.stdoutBuf ++ chunks.flatten) = some r := by
      simpa [initialSession] using hfin
    have lhs := foldl_data_hit chunks initialSession r rfl rfl hall hfin'
    have rhs : runSession [SessionEvent.stdoutData chunks.flatten]
        = applySettle { initialSession with stdoutBuf := chunks.flatten } r := by
      show onStdoutData initialSession chunks.flatten = _
      rw [onStdoutData_eq _ _ rfl]
      simp only [initialSession, List.nil_append, hfin]
    rw [runSession, lhs, rhs]
    simp only [initialSession, List.nil_append]

theorem claim_C3_witness :
    chunkSafe (([("\x7b\"id\":2,\"resu".data),
                 ("lt\":\x7b\"ok\":true\x7d\x7d\n".data)] : List (List Char)).flatten)
        = true ∧
    (runSession (([("\x7b\"id\":2,\"resu".data),
                   ("lt\":\x7b\"ok\":true\x7d\x7d\n".data)] : List (List Char)).map
        SessionEvent.stdoutData)).outcome
      = (runSession [SessionEvent.stdoutData
          (([("\x7b\"id\":2,\"resu".data),
             ("lt\":\x7b\"ok\":true\x7d\x7d\n".data)] : List (List Char)).flatten)]).outcome :=
  ⟨by decide,
   claim_C3_chunk_invariance
     [("\x7b\"id\":2,\"resu".data), ("lt\":\x7b\"ok\":true\x7d\x7d\n".data)]
     (by decide)⟩

end EdgeDocker
